import Mathlib

/-!
Shallow embedding of the IR relay controller (`IRelayControl.ino`).

The controller owns two arrays of length `NUM_RELAYS`:
`hex_codes` (the learned IR code table, uint32 per slot) and
`relay_states` (one boolean per relay).  EEPROM mirrors both: a
4-byte-per-slot code block at offset 0 and one state byte per relay at
`RELAY_STATE_ADDR`.  Codes are compared only for equality, so uint32
values are modelled as `Nat`; physical pin levels are `Bool` with
`true = HIGH`.  The config-mode learning loop is modelled as a step
function over the decoded-code stream.
-/

namespace IRelayControl

/-- Reserved trigger code (`#define CONFIG_IR_CODE 0xE51A7F80`). -/
def CONFIG_IR_CODE : Nat := 0xE51A7F80

/-- Number of relays (`RELAY_PINS` has 4 entries). -/
def NUM_RELAYS : Nat := 4

/-- Physical LOW level (active, by the inverted-logic policy). -/
def LOW : Bool := false

/-- Physical HIGH level (inactive). -/
def HIGH : Bool := true

/-- Byte written to EEPROM for a boolean relay state
(`EEPROM.update(RELAY_STATE_ADDR + index, relay_states[index])`:
the C++ `bool` converts to 0 or 1). -/
def boolToByte (b : Bool) : Nat := if b then 1 else 0

/-- Boolean read back from a state byte
(`relay_states[i] = EEPROM.read(...)`: any nonzero byte is `true`). -/
def byteToBool (n : Nat) : Bool := n != 0

/-- In-memory and persisted state touched by normal-mode operation. -/
structure SysState where
  /-- `uint32_t hex_codes[NUM_RELAYS]` — the learned code table. -/
  hex_codes : List Nat
  /-- `bool relay_states[NUM_RELAYS]` — logical channel states. -/
  relay_states : List Bool
  /-- EEPROM bytes at `RELAY_STATE_ADDR + i` (one byte per channel). -/
  relay_bytes : List Nat
  /-- Level driven on `RELAY_PINS[i]` (`true = HIGH`). -/
  pins : List Bool
  deriving Repr, DecidableEq

/-- Embeds `setup()`: hydrate channel states from the persisted state
bytes, drive each pin to `state ? LOW : HIGH`, and load the code table
from the persisted code block (`EEPROM.get(0, hex_codes)`). -/
def setup (code_block : List Nat) (state_bytes : List Nat) : SysState :=
  { hex_codes := code_block
    relay_states := state_bytes.map byteToBool
    relay_bytes := state_bytes
    pins := state_bytes.map (fun b => if byteToBool b then LOW else HIGH) }

/-- Embeds `toggleRelay(index)`: flip the logical state, drive the pin
to `state ? LOW : HIGH` for the new state, persist the new state byte
(`EEPROM.update`, so the stored byte ends up equal to the new value
either way). -/
def toggleRelay (s : SysState) (index : Nat) : SysState :=
  { s with
    relay_states := s.relay_states.set index (!(s.relay_states.getD index false))
    pins := s.pins.set index
      (if !(s.relay_states.getD index false) then LOW else HIGH)
    relay_bytes := s.relay_bytes.set index
      (boolToByte (!(s.relay_states.getD index false))) }

/-- Index of the first table slot equal to the received code
(the `for`/`break` scan in `loop()`). -/
def firstMatch (codes : List Nat) (c : Nat) : Option Nat :=
  match codes with
  | [] => none
  | h :: t => if c = h then some 0 else (firstMatch t c).map (fun i => i + 1)

/-- Observable outcome of one normal-mode dispatch of a decoded code. -/
inductive NormalAction where
  | enterConfig
  | toggled (index : Nat)
  | noMatch
  deriving Repr, DecidableEq

/-- Normal-mode dispatch of one decoded code (`loop()` lines 125-135):
the trigger code enters config mode; otherwise the table is scanned in
index order and the first matching slot's relay is toggled. -/
def normalDispatch (s : SysState) (ir_code : Nat) : SysState × NormalAction :=
  if ir_code = CONFIG_IR_CODE then (s, .enterConfig)
  else
    match firstMatch s.hex_codes ir_code with
    | some i => (toggleRelay s i, .toggled i)
    | none => (s, .noMatch)

/-- Observable event emitted for one decoded code during config mode. -/
inductive ConfigEvent where
  /-- code stored at `slot`, confirm blink, status report. -/
  | accepted (slot : Nat) (code : Nat)
  /-- duplicate: three rapid blinks plus the status report. -/
  | duplicateError
  /-- zero or trigger code: silently skipped. -/
  | ignored
  deriving Repr, DecidableEq

/-- State of `enterConfigMode()`s learning loop: the in-progress
buffer (the global `hex_codes`, reset by `memset`), the filled count
`codes_stored`, and the persisted code block (EEPROM offsets 0-15),
which the loop body never touches. -/
structure ConfigState where
  buf : List Nat
  stored : Nat
  store_codes : List Nat
  deriving Repr, DecidableEq

/-- Body of the learning loop for one decoded code: zero and the
trigger code are skipped; otherwise the code is checked against slots
`0..stored-1` and either rejected as a duplicate or stored at
position `stored`. -/
def configStep (cs : ConfigState) (ir_code : Nat) : ConfigState × ConfigEvent :=
  if ir_code ≠ 0 ∧ ir_code ≠ CONFIG_IR_CODE then
    if ir_code ∈ cs.buf.take cs.stored then
      (cs, .duplicateError)
    else
      ({ cs with buf := cs.buf.set cs.stored ir_code, stored := cs.stored + 1 },
        .accepted cs.stored ir_code)
  else (cs, .ignored)

/-- One iteration of the learning loop as seen from the decoder:
`decoded = none` models `IrReceiver.decode()` returning false (blink
only); on a decoded code the body runs and the decoder is resumed.
The `Bool` records whether `IrReceiver.resume()` was called. -/
def configIteration (cs : ConfigState) (decoded : Option Nat) :
    ConfigState × Option ConfigEvent × Bool :=
  match decoded with
  | none => (cs, none, false)
  | some c => ((configStep cs c).1, some (configStep cs c).2, true)

/-- The learning loop over a stream of decoded codes: while
`codes_stored < NUM_RELAYS`, each decoded code is processed by the
loop body; once the count reaches `NUM_RELAYS` the loop exits and
further codes are not consumed. -/
def runConfig : ConfigState → List Nat → ConfigState × List ConfigEvent
  | cs, [] => (cs, [])
  | cs, c :: rest =>
    if cs.stored < NUM_RELAYS then
      ((runConfig (configStep cs c).1 rest).1,
        (configStep cs c).2 :: (runConfig (configStep cs c).1 rest).2)
    else (cs, [])

/-- Entry state of `enterConfigMode()`: `memset(hex_codes, 0, ...)`
and `codes_stored = 0`; the persisted block is whatever it was. -/
def configInit (store : List Nat) : ConfigState :=
  { buf := List.replicate NUM_RELAYS 0, stored := 0, store_codes := store }

/-- Loop exit: `EEPROM.put(0, hex_codes)` persists the whole buffer
as one write. -/
def configExit (cs : ConfigState) : ConfigState :=
  { cs with store_codes := cs.buf }

/-- Embeds `enterConfigMode()` on a finite decoded-code stream: `some`
when the stream fills all `NUM_RELAYS` slots (then the buffer is
persisted on exit), `none` when the stream ends while the loop would
still be waiting for codes. -/
def enterConfigMode (store : List Nat) (inputs : List Nat) :
    Option (ConfigState × List ConfigEvent) :=
  if (runConfig (configInit store) inputs).1.stored = NUM_RELAYS then
    some (configExit (runConfig (configInit store) inputs).1,
      (runConfig (configInit store) inputs).2)
  else none

/-- A code the learning loop may accept: nonzero and not the trigger. -/
def ValidCode (c : Nat) : Prop := c ≠ 0 ∧ c ≠ CONFIG_IR_CODE

instance (c : Nat) : Decidable (ValidCode c) := by
  unfold ValidCode; infer_instance

/-! List helper lemmas used by the invariant proofs. -/

/-- Setting a slot at or beyond the taken prefix leaves the prefix alone. -/
theorem take_set_le {α : Type} (l : List α) (n m : Nat) (a : α) (h : m ≤ n) :
    (l.set n a).take m = l.take m := by
  induction l generalizing n m with
  | nil => simp
  | cons x t ih =>
    cases n with
    | zero =>
      cases m with
      | zero => simp
      | succ m => omega
    | succ n =>
      cases m with
      | zero => simp
      | succ m => simpa using ih n m (by omega)

/-- Taking one past a freshly set slot appends the new element. -/
theorem take_set_succ {α : Type} (l : List α) (n : Nat) (a : α)
    (h : n < l.length) :
    (l.set n a).take (n + 1) = l.take n ++ [a] := by
  induction l generalizing n with
  | nil => simp at h
  | cons x t ih =>
    cases n with
    | zero => simp
    | succ n => simpa using ih n (by simpa using h)

/-- Writing back the element already stored at a valid index is a no-op. -/
theorem set_getD_self {α : Type} (l : List α) (i : Nat) (d : α)
    (h : i < l.length) :
    l.set i (l.getD i d) = l := by
  induction l generalizing i with
  | nil => simp at h
  | cons x t ih =>
    cases i with
    | zero => simp [List.getD]
    | succ i => simpa [List.getD] using ih i (by simpa using h)

/-- Reading a freshly set slot at a valid index returns the new element. -/
theorem getD_set_self {α : Type} (l : List α) (i : Nat) (a d : α)
    (h : i < l.length) :
    (l.set i a).getD i d = a := by
  induction l generalizing i with
  | nil => simp at h
  | cons x t ih =>
    cases i with
    | zero => simp [List.getD]
    | succ i => simpa [List.getD] using ih i (by simpa using h)

/-- Characterisation of the first-match scan: if slot `j` holds the
code and no earlier slot does, the scan stops exactly at `j`. -/
theorem firstMatch_eq_of_first (codes : List Nat) (c : Nat) (j : Nat)
    (hj : codes[j]? = some c) (hfirst : ∀ k, k < j → codes[k]? ≠ some c) :
    firstMatch codes c = some j := by
  induction codes generalizing j with
  | nil => simp at hj
  | cons h t ih =>
    cases j with
    | zero =>
      simp at hj
      simp [firstMatch, hj]
    | succ j =>
      have h0 : c ≠ h := by
        intro e
        exact hfirst 0 (Nat.succ_pos j) (by simp [e])
      have ht : t[j]? = some c := by simpa using hj
      have htf : ∀ k, k < j → t[k]? ≠ some c := by
        intro k hk he
        exact hfirst (k + 1) (by omega) (by simpa using he)
      simp [firstMatch, h0, ih j ht htf]

/-! Invariants of the learning loop. -/

/-- Setting one slot leaves every other slot's default read alone. -/
theorem getD_set_ne {α : Type} (l : List α) (n m : Nat) (a d : α)
    (h : n ≠ m) : (l.set n a).getD m d = l.getD m d := by
  induction l generalizing n m with
  | nil => rfl
  | cons x t ih =>
    cases n with
    | zero =>
      cases m with
      | zero => exact absurd rfl h
      | succ m => rfl
    | succ n =>
      cases m with
      | zero => rfl
      | succ m => simpa [List.getD] using ih n m (fun e => h (by rw [e]))

/-- Every read of a replicated list with its own element as default
returns that element. -/
theorem getD_replicate_self {α : Type} :
    ∀ (n i : Nat) (a : α), (List.replicate n a).getD i a = a
  | 0, _, _ => rfl
  | _ + 1, 0, _ => rfl
  | n + 1, i + 1, a => getD_replicate_self n i a

/-- Invariant of the learning loop: the buffer keeps its length, the
fill count never exceeds the slot count, the filled prefix holds
pairwise-distinct codes that are all nonzero and distinct from the
trigger, and every slot at or beyond the fill count still holds the
zero it was reset to. -/
structure ConfigInv (cs : ConfigState) : Prop where
  len : cs.buf.length = NUM_RELAYS
  le : cs.stored ≤ NUM_RELAYS
  nodup : (cs.buf.take cs.stored).Nodup
  valid : ∀ c ∈ cs.buf.take cs.stored, ValidCode c
  zeros : ∀ i, cs.stored ≤ i → cs.buf.getD i 0 = 0

theorem configInv_init (store : List Nat) : ConfigInv (configInit store) := by
  refine ⟨by simp [configInit], by simp [configInit, NUM_RELAYS],
    by simp [configInit], by simp [configInit], ?_⟩
  intro i _
  exact getD_replicate_self NUM_RELAYS i 0

/-- Branch equation: a zero or trigger code is ignored. -/
theorem configStep_ignore_eq (cs : ConfigState) (c : Nat)
    (h : c = 0 ∨ c = CONFIG_IR_CODE) :
    configStep cs c = (cs, .ignored) := by
  rcases h with h | h <;> subst h <;> simp [configStep]

/-- Branch equation: a valid code already in the filled prefix is
rejected with the duplicate-error cue. -/
theorem configStep_dup_eq (cs : ConfigState) (c : Nat) (hv : ValidCode c)
    (hmem : c ∈ cs.buf.take cs.stored) :
    configStep cs c = (cs, .duplicateError) := by
  simp [configStep, hv.1, hv.2, hmem]

/-- Branch equation: a valid fresh code is stored at the next slot. -/
theorem configStep_accept_eq (cs : ConfigState) (c : Nat) (hv : ValidCode c)
    (hmem : c ∉ cs.buf.take cs.stored) :
    configStep cs c =
      ({ cs with buf := cs.buf.set cs.stored c, stored := cs.stored + 1 },
        .accepted cs.stored c) := by
  simp [configStep, hv.1, hv.2, hmem]

/-- The loop body never touches the persisted code block. -/
theorem configStep_store_codes (cs : ConfigState) (c : Nat) :
    (configStep cs c).1.store_codes = cs.store_codes := by
  by_cases hv : ValidCode c
  · by_cases hmem : c ∈ cs.buf.take cs.stored
    · rw [configStep_dup_eq cs c hv hmem]
    · rw [configStep_accept_eq cs c hv hmem]
  · rw [configStep_ignore_eq cs c (by
      rcases Nat.eq_zero_or_pos c with h | h
      · exact Or.inl h
      · refine Or.inr ?_
        by_contra hne
        exact hv ⟨by omega, hne⟩)]

/-- Validity is decidably dichotomous: an invalid code is zero or the
trigger. -/
theorem not_valid_iff (c : Nat) : ¬ValidCode c ↔ (c = 0 ∨ c = CONFIG_IR_CODE) := by
  unfold ValidCode
  constructor
  · intro h
    by_contra hne
    push_neg at hne
    exact h ⟨hne.1, hne.2⟩
  · rintro (h | h) ⟨h1, h2⟩
    · exact h1 h
    · exact h2 h

/-- The fill count never decreases across a loop body run. -/
theorem configStep_stored_le (cs : ConfigState) (c : Nat) :
    cs.stored ≤ (configStep cs c).1.stored := by
  by_cases hv : ValidCode c
  · by_cases hmem : c ∈ cs.buf.take cs.stored
    · rw [configStep_dup_eq cs c hv hmem]
    · rw [configStep_accept_eq cs c hv hmem]
      exact Nat.le_succ _
  · rw [configStep_ignore_eq cs c ((not_valid_iff c).mp hv)]

/-- A rejected or ignored submission leaves the whole state unchanged. -/
theorem configStep_reject_eq (cs : ConfigState) (c : Nat)
    (h : (configStep cs c).2 = .duplicateError ∨ (configStep cs c).2 = .ignored) :
    (configStep cs c).1 = cs := by
  by_cases hv : ValidCode c
  · by_cases hmem : c ∈ cs.buf.take cs.stored
    · rw [configStep_dup_eq cs c hv hmem]
    · rw [configStep_accept_eq cs c hv hmem] at h
      simp at h
  · rw [configStep_ignore_eq cs c ((not_valid_iff c).mp hv)]

/-- The loop body preserves the invariant while slots remain. -/
theorem configStep_inv (cs : ConfigState) (c : Nat) (h : ConfigInv cs)
    (hlt : cs.stored < NUM_RELAYS) : ConfigInv (configStep cs c).1 := by
  obtain ⟨hlen, hle, hnd, hval, hzero⟩ := h
  by_cases hv : ValidCode c
  · by_cases hmem : c ∈ cs.buf.take cs.stored
    · rw [configStep_dup_eq cs c hv hmem]
      exact ⟨hlen, hle, hnd, hval, hzero⟩
    · rw [configStep_accept_eq cs c hv hmem]
      have hs : cs.stored < cs.buf.length := by omega
      refine ⟨by simpa using hlen, hlt, ?_, ?_, ?_⟩
      · simp only
        rw [take_set_succ cs.buf cs.stored c hs]
        simp [List.nodup_append, hnd, hmem]
      · simp only
        rw [take_set_succ cs.buf cs.stored c hs]
        intro x hx
        rcases List.mem_append.mp hx with hx | hx
        · exact hval x hx
        · simp at hx
          subst hx
          exact hv
      · simp only
        intro i hi
        rw [getD_set_ne cs.buf cs.stored i c 0 (by omega)]
        exact hzero i (by omega)
  · rw [configStep_ignore_eq cs c ((not_valid_iff c).mp hv)]
    exact ⟨hlen, hle, hnd, hval, hzero⟩

/-- Taking one more element can only grow the prefix. -/
theorem take_subset_take_succ {α : Type} (l : List α) (n : Nat) :
    l.take n ⊆ l.take (n + 1) := by
  intro y hy
  have h := List.take_take n (n + 1) l
  rw [Nat.min_eq_left (by omega)] at h
  rw [← h] at hy
  exact List.take_subset _ _ hy

/-- Membership in the filled prefix survives a loop body run. -/
theorem configStep_mem_mono (cs : ConfigState) (c x : Nat)
    (hx : x ∈ cs.buf.take cs.stored) :
    x ∈ (configStep cs c).1.buf.take (configStep cs c).1.stored := by
  unfold configStep
  split
  · split
    · exact hx
    · simp only
      have h1 : x ∈ (cs.buf.set cs.stored c).take cs.stored := by
        rw [take_set_le cs.buf cs.stored cs.stored c (Nat.le_refl _)]
        exact hx
      exact take_subset_take_succ (cs.buf.set cs.stored c) cs.stored h1
  · exact hx

/-- Equation: the loop processes a code while slots remain. -/
theorem runConfig_cons_lt (cs : ConfigState) (c : Nat) (rest : List Nat)
    (h : cs.stored < NUM_RELAYS) :
    runConfig cs (c :: rest) =
      ((runConfig (configStep cs c).1 rest).1,
        (configStep cs c).2 :: (runConfig (configStep cs c).1 rest).2) := by
  simp [runConfig, h]

/-- Equation: the loop has exited once the count reaches the slot
total; later codes are not consumed. -/
theorem runConfig_cons_ge (cs : ConfigState) (c : Nat) (rest : List Nat)
    (h : ¬cs.stored < NUM_RELAYS) :
    runConfig cs (c :: rest) = (cs, []) := by
  simp [runConfig, h]

/-- The whole loop never touches the persisted code block. -/
theorem runConfig_store_codes (inputs : List Nat) :
    ∀ cs : ConfigState, (runConfig cs inputs).1.store_codes = cs.store_codes := by
  induction inputs with
  | nil => intro cs; rfl
  | cons c rest ih =>
    intro cs
    by_cases h : cs.stored < NUM_RELAYS
    · rw [runConfig_cons_lt cs c rest h]
      simp only
      rw [ih (configStep cs c).1, configStep_store_codes]
    · rw [runConfig_cons_ge cs c rest h]

/-- The fill count never decreases across the whole loop. -/
theorem runConfig_stored_le (inputs : List Nat) :
    ∀ cs : ConfigState, cs.stored ≤ (runConfig cs inputs).1.stored := by
  induction inputs with
  | nil => intro cs; exact Nat.le_refl _
  | cons c rest ih =>
    intro cs
    by_cases h : cs.stored < NUM_RELAYS
    · rw [runConfig_cons_lt cs c rest h]
      exact Nat.le_trans (configStep_stored_le cs c) (ih (configStep cs c).1)
    · rw [runConfig_cons_ge cs c rest h]

/-- The whole loop preserves the invariant. -/
theorem runConfig_inv (inputs : List Nat) :
    ∀ cs : ConfigState, ConfigInv cs → ConfigInv (runConfig cs inputs).1 := by
  induction inputs with
  | nil => intro cs h; exact h
  | cons c rest ih =>
    intro cs h
    by_cases hlt : cs.stored < NUM_RELAYS
    · rw [runConfig_cons_lt cs c rest hlt]
      exact ih (configStep cs c).1 (configStep_inv cs c h hlt)
    · rw [runConfig_cons_ge cs c rest hlt]
      exact h

/-- Membership in the filled prefix survives the whole loop. -/
theorem runConfig_mem_mono (inputs : List Nat) :
    ∀ (cs : ConfigState) (x : Nat), x ∈ cs.buf.take cs.stored →
      x ∈ (runConfig cs inputs).1.buf.take (runConfig cs inputs).1.stored := by
  induction inputs with
  | nil => intro cs x hx; exact hx
  | cons c rest ih =>
    intro cs x hx
    by_cases hlt : cs.stored < NUM_RELAYS
    · rw [runConfig_cons_lt cs c rest hlt]
      exact ih (configStep cs c).1 x (configStep_mem_mono cs c x hx)
    · rw [runConfig_cons_ge cs c rest hlt]
      exact hx

/-- If the loop is still waiting for codes after consuming the whole
stream, then every valid code of the stream sits in the filled prefix
(it was either accepted, or rejected as a duplicate of an accepted
occurrence). -/
theorem runConfig_processed_mem (inputs : List Nat) :
    ∀ cs : ConfigState, ConfigInv cs →
      (runConfig cs inputs).1.stored < NUM_RELAYS →
      ∀ c ∈ inputs, ValidCode c →
        c ∈ (runConfig cs inputs).1.buf.take (runConfig cs inputs).1.stored := by
  induction inputs with
  | nil => intro cs _ _ c hc; simp at hc
  | cons c0 rest ih =>
    intro cs hinv hend c hc hv
    by_cases hlt : cs.stored < NUM_RELAYS
    · rw [runConfig_cons_lt cs c0 rest hlt] at hend ⊢
      simp only at hend ⊢
      rcases List.mem_cons.mp hc with hc | hc
      · subst hc
        have hmem1 : c ∈ (configStep cs c).1.buf.take (configStep cs c).1.stored := by
          by_cases hdup : c ∈ cs.buf.take cs.stored
          · exact configStep_mem_mono cs c c hdup
          · rw [configStep_accept_eq cs c hv hdup]
            have hs : cs.stored < cs.buf.length := by
              have := hinv.len
              omega
            simp only
            rw [take_set_succ cs.buf cs.stored c hs]
            exact List.mem_append.mpr (Or.inr (List.mem_singleton.mpr rfl))
        exact runConfig_mem_mono rest (configStep cs c).1 c hmem1
      · exact ih (configStep cs c0).1 (configStep_inv cs c0 hinv hlt) hend c hc hv
    · rw [runConfig_cons_ge cs c0 rest hlt] at hend
      exact absurd hend hlt

/-! Claim theorems. -/

/-- Claim C3: in Normal mode, a received code that is not the trigger
and whose first table match is slot `j` causes exactly one
`Toggle(j)` (the scan stops at the first match), and the logical state
of every channel other than `j` is unchanged. -/
theorem normal_first_match_unique_toggle (s : SysState) (c j : Nat)
    (hc : c ≠ CONFIG_IR_CODE)
    (hj : s.hex_codes[j]? = some c)
    (hfirst : ∀ k, k < j → s.hex_codes[k]? ≠ some c) :
    normalDispatch s c = (toggleRelay s j, .toggled j) ∧
    ∀ k, k ≠ j → (toggleRelay s j).relay_states[k]? = s.relay_states[k]? := by
  constructor
  · unfold normalDispatch
    rw [if_neg hc, firstMatch_eq_of_first s.hex_codes c j hj hfirst]
  · intro k hk
    simp only [toggleRelay]
    rw [List.getElem?_set_ne (fun e => hk e.symm)]

/-- Witness for C3: with table `[0x11, 0x22, 0, 0]`, code `0x22`
toggles exactly channel 1 and leaves the other channels alone. -/
theorem normal_first_match_unique_toggle_witness :
    normalDispatch (setup [0x11, 0x22, 0, 0] [0, 0, 0, 0]) 0x22 =
      (toggleRelay (setup [0x11, 0x22, 0, 0] [0, 0, 0, 0]) 1, .toggled 1) ∧
    ∀ k, k ≠ 1 →
      (toggleRelay (setup [0x11, 0x22, 0, 0] [0, 0, 0, 0]) 1).relay_states[k]? =
        (setup [0x11, 0x22, 0, 0] [0, 0, 0, 0]).relay_states[k]? :=
  normal_first_match_unique_toggle (setup [0x11, 0x22, 0, 0] [0, 0, 0, 0]) 0x22 1
    (by decide) (by decide)
    (by
      intro k hk
      have : k = 0 := by omega
      subst this
      decide)

/-- Claim C4: receiving the trigger code in Normal mode always enters
config mode, performs no table lookup and toggles nothing, whatever
the table holds. -/
theorem normal_trigger_enters_config (s : SysState) :
    normalDispatch s CONFIG_IR_CODE = (s, .enterConfig) := by
  simp [normalDispatch]

/-- Counterexample for C5 as stated: booting from a persisted state
byte 2 (nonzero means on), a double toggle restores the logical state
but rewrites the persisted byte to the canonical 1, so the byte does
not equal its pre-toggle value. -/
theorem toggle_twice_byte_counterexample :
    (setup [1, 2, 3, 4] [2, 0, 0, 0]).relay_bytes.getD 0 0 = 2 ∧
    (toggleRelay (toggleRelay (setup [1, 2, 3, 4] [2, 0, 0, 0]) 0) 0).relay_states =
      (setup [1, 2, 3, 4] [2, 0, 0, 0]).relay_states ∧
    (toggleRelay (toggleRelay (setup [1, 2, 3, 4] [2, 0, 0, 0]) 0) 0).relay_bytes ≠
      (setup [1, 2, 3, 4] [2, 0, 0, 0]).relay_bytes := by
  decide

/-- Claim C5 (amended): a double toggle always restores the channel's
logical state; it also restores the persisted byte provided that byte
was the canonical encoding (1 for on, 0 for off) of the logical state
before the first toggle. -/
theorem toggle_twice_restores (s : SysState) (i : Nat)
    (hi : i < s.relay_states.length)
    (hb : s.relay_bytes.length = s.relay_states.length) :
    (toggleRelay (toggleRelay s i) i).relay_states = s.relay_states ∧
    (s.relay_bytes.getD i 0 = boolToByte (s.relay_states.getD i false) →
      (toggleRelay (toggleRelay s i) i).relay_bytes = s.relay_bytes) := by
  constructor
  · simp only [toggleRelay]
    rw [getD_set_self s.relay_states i _ false hi, Bool.not_not, List.set_set,
      set_getD_self s.relay_states i false hi]
  · intro heq
    simp only [toggleRelay]
    rw [getD_set_self s.relay_states i _ false hi, Bool.not_not, List.set_set,
      ← heq, set_getD_self s.relay_bytes i 0 (by omega)]

/-- Witness for C5 (amended): channel 0 booted from byte 1 returns to
state on and byte 1 after a double toggle. -/
theorem toggle_twice_restores_witness :
    (toggleRelay (toggleRelay (setup [1, 2, 3, 4] [1, 0, 1, 0]) 0) 0).relay_states =
      (setup [1, 2, 3, 4] [1, 0, 1, 0]).relay_states ∧
    ((setup [1, 2, 3, 4] [1, 0, 1, 0]).relay_bytes.getD 0 0 =
        boolToByte ((setup [1, 2, 3, 4] [1, 0, 1, 0]).relay_states.getD 0 false) →
      (toggleRelay (toggleRelay (setup [1, 2, 3, 4] [1, 0, 1, 0]) 0) 0).relay_bytes =
        (setup [1, 2, 3, 4] [1, 0, 1, 0]).relay_bytes) :=
  toggle_twice_restores (setup [1, 2, 3, 4] [1, 0, 1, 0]) 0 (by decide) (by decide)

/-- Claim C9: booting from persisted state bytes `[1, 0, 1, 0]` drives
channels 0 and 2 to the active (LOW) level and channels 1 and 3 to
the inactive (HIGH) level; in general the pin driven at boot is the
logical inverse of the channel state, and a toggle preserves that
inversion. -/
theorem boot_pins_inverted (code_block state_bytes : List Nat)
    (s : SysState) (i : Nat) :
    (setup (List.replicate 4 0) [1, 0, 1, 0]).pins = [LOW, HIGH, LOW, HIGH] ∧
    (setup code_block state_bytes).pins =
      (setup code_block state_bytes).relay_states.map (fun b => !b) ∧
    (s.pins = s.relay_states.map (fun b => !b) →
      (toggleRelay s i).pins = (toggleRelay s i).relay_states.map (fun b => !b)) := by
  have hfun : ∀ b : Bool, (if b then LOW else HIGH) = !b := by
    intro b
    cases b <;> simp [LOW, HIGH]
  refine ⟨by decide, ?_, ?_⟩
  · simp only [setup, List.map_map]
    congr 1
    funext b
    simp [hfun]
  · intro hp
    simp only [toggleRelay, List.map_set]
    rw [hp, hfun]

/-- Witness for C9: instantiated at the boot bytes `[1, 0, 1, 0]` and
one toggle of channel 0. -/
theorem boot_pins_inverted_witness :
    (setup (List.replicate 4 0) [1, 0, 1, 0]).pins = [LOW, HIGH, LOW, HIGH] ∧
    (setup (List.replicate 4 0) [1, 0, 1, 0]).pins =
      (setup (List.replicate 4 0) [1, 0, 1, 0]).relay_states.map (fun b => !b) ∧
    ((setup (List.replicate 4 0) [1, 0, 1, 0]).pins =
        (setup (List.replicate 4 0) [1, 0, 1, 0]).relay_states.map (fun b => !b) →
      (toggleRelay (setup (List.replicate 4 0) [1, 0, 1, 0]) 0).pins =
        (toggleRelay (setup (List.replicate 4 0) [1, 0, 1, 0]) 0).relay_states.map
          (fun b => !b)) :=
  boot_pins_inverted (List.replicate 4 0) [1, 0, 1, 0]
    (setup (List.replicate 4 0) [1, 0, 1, 0]) 0

/-- Claim C10: in Normal mode the code value 0 is dispatched like any
other code; when the lowest-index slot holding 0 is `j`, receiving 0
toggles channel `j` — unprogrammed slots are not excluded. -/
theorem normal_zero_code_dispatch (s : SysState) (j : Nat)
    (hj : s.hex_codes[j]? = some 0)
    (hfirst : ∀ k, k < j → s.hex_codes[k]? ≠ some 0) :
    normalDispatch s 0 = (toggleRelay s j, .toggled j) := by
  unfold normalDispatch
  rw [if_neg (by decide : ¬(0 = CONFIG_IR_CODE)),
    firstMatch_eq_of_first s.hex_codes 0 j hj hfirst]

/-- Witness for C10: with table `[0x11, 0, 0, 0]`, receiving 0 toggles
channel 1, the lowest zero slot. -/
theorem normal_zero_code_dispatch_witness :
    normalDispatch (setup [0x11, 0, 0, 0] [0, 0, 0, 0]) 0 =
      (toggleRelay (setup [0x11, 0, 0, 0] [0, 0, 0, 0]) 1, .toggled 1) :=
  normal_zero_code_dispatch (setup [0x11, 0, 0, 0] [0, 0, 0, 0]) 1
    (by decide)
    (by
      intro k hk
      have : k = 0 := by omega
      subst this
      decide)

/-- Claim C1: during config mode the filled entries of the in-progress
buffer are always pairwise distinct and nonzero while every unfilled
slot still holds zero (so no two entries ever hold the same learned
value), and re-submitting a nonzero, non-trigger code that was already
submitted — while slots remain — leaves the state (hence the filled
count) unchanged and emits the duplicate-error cue. -/
theorem config_no_equal_filled_entries (store inputs : List Nat) (c : Nat)
    (hv : ValidCode c) (hmem : c ∈ inputs)
    (hlt : (runConfig (configInit store) inputs).1.stored < NUM_RELAYS) :
    ((runConfig (configInit store) inputs).1.buf.take
        (runConfig (configInit store) inputs).1.stored).Nodup ∧
    (∀ x ∈ (runConfig (configInit store) inputs).1.buf.take
        (runConfig (configInit store) inputs).1.stored, x ≠ 0) ∧
    (∀ i, (runConfig (configInit store) inputs).1.stored ≤ i →
      (runConfig (configInit store) inputs).1.buf.getD i 0 = 0) ∧
    configStep (runConfig (configInit store) inputs).1 c =
      ((runConfig (configInit store) inputs).1, .duplicateError) := by
  have hinv := runConfig_inv inputs (configInit store) (configInv_init store)
  refine ⟨hinv.nodup, fun x hx => (hinv.valid x hx).1, hinv.zeros, ?_⟩
  exact configStep_dup_eq _ c hv
    (runConfig_processed_mem inputs (configInit store) (configInv_init store)
      hlt c hmem hv)

/-- Witness for C1: after submitting `0x11` once, submitting it again
is rejected as a duplicate without filling a slot. -/
theorem config_no_equal_filled_entries_witness :
    ((runConfig (configInit (List.replicate 4 0)) [0x11]).1.buf.take
        (runConfig (configInit (List.replicate 4 0)) [0x11]).1.stored).Nodup ∧
    (∀ x ∈ (runConfig (configInit (List.replicate 4 0)) [0x11]).1.buf.take
        (runConfig (configInit (List.replicate 4 0)) [0x11]).1.stored, x ≠ 0) ∧
    (∀ i, (runConfig (configInit (List.replicate 4 0)) [0x11]).1.stored ≤ i →
      (runConfig (configInit (List.replicate 4 0)) [0x11]).1.buf.getD i 0 = 0) ∧
    configStep (runConfig (configInit (List.replicate 4 0)) [0x11]).1 0x11 =
      ((runConfig (configInit (List.replicate 4 0)) [0x11]).1, .duplicateError) :=
  config_no_equal_filled_entries (List.replicate 4 0) [0x11] 0x11
    (by decide) (by decide) (by decide)

/-- Claim C2: with 4 slots and trigger `0xE51A7F80`, feeding
`[0x11, 0x22, 0x11, 0x33, 0x44]` accepts `0x11, 0x22, 0x33, 0x44` in
order into slots 0-3, emits exactly one duplicate-error event (for
the second `0x11`), and persists the table `[0x11, 0x22, 0x33, 0x44]`. -/
theorem config_feed_sequence_result :
    NUM_RELAYS = 4 ∧ CONFIG_IR_CODE = 0xE51A7F80 ∧
    enterConfigMode (List.replicate 4 0) [0x11, 0x22, 0x11, 0x33, 0x44] =
      some
        ({ buf := [0x11, 0x22, 0x33, 0x44], stored := 4,
            store_codes := [0x11, 0x22, 0x33, 0x44] },
          [.accepted 0 0x11, .accepted 1 0x22, .duplicateError,
            .accepted 2 0x33, .accepted 3 0x44]) ∧
    ((runConfig (configInit (List.replicate 4 0))
          [0x11, 0x22, 0x11, 0x33, 0x44]).2.filter
        (fun e => e == ConfigEvent.duplicateError)).length = 1 := by
  decide

/-- Claim C6: whenever the decoded stream contains `NUM_RELAYS`
pairwise-distinct nonzero, non-trigger codes, the learning loop
finishes with the fill count exactly `NUM_RELAYS`, however many
duplicate, zero or trigger submissions are interleaved; every
rejected or ignored submission leaves the state unchanged. -/
theorem config_fills_all_slots (store inputs : List Nat)
    (h : NUM_RELAYS ≤ ((inputs.filter fun c => decide (ValidCode c)).dedup).length) :
    (runConfig (configInit store) inputs).1.stored = NUM_RELAYS ∧
    ∀ (cs : ConfigState) (c : Nat),
      ((configStep cs c).2 = .duplicateError ∨ (configStep cs c).2 = .ignored) →
      (configStep cs c).1 = cs := by
  refine ⟨?_, fun cs c hc => configStep_reject_eq cs c hc⟩
  have hinv := runConfig_inv inputs (configInit store) (configInv_init store)
  rcases Nat.lt_or_ge (runConfig (configInit store) inputs).1.stored NUM_RELAYS with
    hlt | hge
  · exfalso
    have hsub : (inputs.filter fun c => decide (ValidCode c)).dedup ⊆
        (runConfig (configInit store) inputs).1.buf.take
          (runConfig (configInit store) inputs).1.stored := by
      intro x hx
      rw [List.mem_dedup] at hx
      have hx2 := List.mem_filter.mp hx
      exact runConfig_processed_mem inputs (configInit store) (configInv_init store)
        hlt x hx2.1 (of_decide_eq_true hx2.2)
    have hlen := ((List.nodup_dedup _).subperm hsub).length_le
    have htake : ((runConfig (configInit store) inputs).1.buf.take
        (runConfig (configInit store) inputs).1.stored).length =
        (runConfig (configInit store) inputs).1.stored := by
      rw [List.length_take]
      have h1 := hinv.len
      have h2 := hinv.le
      omega
    omega
  · exact Nat.le_antisymm hinv.le hge

/-- Witness for C6: four distinct valid codes fill all four slots. -/
theorem config_fills_all_slots_witness :
    (runConfig (configInit (List.replicate 4 0)) [1, 2, 3, 4]).1.stored =
      NUM_RELAYS ∧
    ∀ (cs : ConfigState) (c : Nat),
      ((configStep cs c).2 = .duplicateError ∨ (configStep cs c).2 = .ignored) →
      (configStep cs c).1 = cs :=
  config_fills_all_slots (List.replicate 4 0) [1, 2, 3, 4] (by decide)

/-- Claim C7: when config mode completes, the persisted code block
equals the buffer at completion (one whole-table write on exit), and
no prefix of the decoded stream — that is, no point inside the loop —
ever changes the persisted block from its pre-entry contents. -/
theorem config_persists_whole_buffer_once (store inputs : List Nat)
    (cs : ConfigState) (evs : List ConfigEvent)
    (h : enterConfigMode store inputs = some (cs, evs)) :
    cs.store_codes = cs.buf ∧
    cs.buf = (runConfig (configInit store) inputs).1.buf ∧
    ∀ pre : List Nat, (runConfig (configInit store) pre).1.store_codes = store := by
  unfold enterConfigMode at h
  by_cases hc : (runConfig (configInit store) inputs).1.stored = NUM_RELAYS
  · rw [if_pos hc] at h
    have h' := Option.some.inj h
    have h1 : cs = configExit (runConfig (configInit store) inputs).1 :=
      (congrArg Prod.fst h').symm
    subst h1
    refine ⟨rfl, rfl, ?_⟩
    intro pre
    rw [runConfig_store_codes pre (configInit store)]
    rfl
  · rw [if_neg hc] at h
    exact absurd h (by simp)

/-- Witness for C7: a completing run persists exactly its buffer. -/
theorem config_persists_whole_buffer_once_witness :
    ({ buf := [1, 2, 3, 4], stored := 4,
        store_codes := [1, 2, 3, 4] } : ConfigState).store_codes =
      ({ buf := [1, 2, 3, 4], stored := 4,
          store_codes := [1, 2, 3, 4] } : ConfigState).buf ∧
    ({ buf := [1, 2, 3, 4], stored := 4,
        store_codes := [1, 2, 3, 4] } : ConfigState).buf =
      (runConfig (configInit (List.replicate 4 0)) [1, 2, 3, 4]).1.buf ∧
    ∀ pre : List Nat,
      (runConfig (configInit (List.replicate 4 0)) pre).1.store_codes =
        List.replicate 4 0 :=
  config_persists_whole_buffer_once (List.replicate 4 0) [1, 2, 3, 4]
    { buf := [1, 2, 3, 4], stored := 4, store_codes := [1, 2, 3, 4] }
    [.accepted 0 1, .accepted 1 2, .accepted 2 3, .accepted 3 4]
    (by decide)

/-- Claim C8: a decoded code that is zero or equals the trigger is
ignored during config mode: the state (buffer and fill count) is
unchanged, no error and no acceptance is flagged, and the decoder is
resumed. -/
theorem config_ignores_zero_and_trigger (cs : ConfigState) (c : Nat)
    (h : c = 0 ∨ c = CONFIG_IR_CODE) :
    configIteration cs (some c) = (cs, some .ignored, true) := by
  simp [configIteration, configStep_ignore_eq cs c h]

/-- Witness for C8: a decoded zero is silently skipped and the decoder
resumed. -/
theorem config_ignores_zero_and_trigger_witness :
    configIteration (configInit (List.replicate 4 0)) (some 0) =
      (configInit (List.replicate 4 0), some .ignored, true) :=
  config_ignores_zero_and_trigger (configInit (List.replicate 4 0)) 0 (Or.inl rfl)

end IRelayControl
